import Mathlib

/-!
Shallow embedding of the `tp_LF` repository (files `tp-langages.py`,
`contextfree.py`, `stack.py`) and verification of the frozen claims about it.

Conventions of the embedding:
* Python strings are Lean `String`s; a Python "character" (a length-1 string)
  used as a transition letter is a Lean `Char`.
* Python `None` for the optional fields `initialstate` / `initialstack` is an
  `Option String`.
* A Python function that can fall through without `return`, or raise, returns
  an element of the explicit result type `PyRes` (`rNone` = the implicit
  `None` return, `exn` = an uncaught exception such as `IndexError`).
* `str.islower()` is modelled for the ASCII alphabet actually used by the
  repository: a one-character string is lower-case iff its character is in
  `a`..`z` (`Char.isLower`).
-/

/-- The constant `EPSILON = "%"` of `contextfree.py`, as a transition letter
(letters are single characters). -/
def EPS : Char := '%'

/-- The constant `EPSILON = "%"` of `contextfree.py`, as a stack / grammar
symbol (those are full strings). -/
def EPSILONS : String := "%"

/-- A transition of a `StackAutomaton`: the quintuple
`(source, letter, head, push, target)` of `contextfree.py`. -/
structure Transition where
  source : String
  letter : Char
  head : String
  push : List String
  target : String
deriving DecidableEq

/-- The `StackAutomaton` data of `contextfree.py` that the algorithms read:
`initialstate`, `initialstack` (both possibly `None`), `finalList`,
`transitionList`.  The `name` attribute is only used in warning messages and
is omitted. -/
structure StackAutomaton where
  initialstate : Option String
  initialstack : Option String
  finalList : List String
  transitionList : List Transition
deriving DecidableEq

/-- The key `(source, letter, head)` stored in `seen_transitions` by
`is_deterministic` in `tp-langages.py`. -/
def seenKey (t : Transition) : String × Char × String :=
  (t.source, t.letter, t.head)

/-- The loop of `is_deterministic` (`tp-langages.py`, lines 12-24): scan the
transitions, keeping the set `seen_transitions` of already-seen
`(source, letter, head)` keys; return `false` on the first conflict.
The Python `set` is modelled as a list (only membership and iteration are
used, and a key equal to a stored one is never added because the first check
already returns `false`). -/
def is_det_aux : List Transition → List (String × Char × String) → Bool
  | [], _ => true
  | t :: rest, seen =>
    if (t.source, t.letter, t.head) ∈ seen then false
    else if (t.source, EPS, t.head) ∈ seen then false
    else if t.letter = EPS ∧ ∃ k ∈ seen, k.1 = t.source ∧ k.2.2 = t.head then false
    else is_det_aux rest ((t.source, t.letter, t.head) :: seen)

/-- `is_deterministic` of `tp-langages.py` (lines 12-24), as a function of the
automaton's transition list. -/
def is_deterministic (l : List Transition) : Bool :=
  is_det_aux l []

/-- Compatibility of a stored key with a later transition: the conjunction of
the three checks of `is_deterministic` restricted to that key.  When the key
shares `(source, head)` with the transition, their letters must differ and
neither may be `EPSILON`. -/
def keyCompat (k : String × Char × String) (t : Transition) : Prop :=
  k.1 = t.source → k.2.2 = t.head →
    (k.2.1 ≠ t.letter ∧ k.2.1 ≠ EPS ∧ t.letter ≠ EPS)

/-- Determinism-compatibility of two transitions: if they share source state
and popped symbol then their letters differ and neither letter is `EPSILON`. -/
def detCompat (t1 t2 : Transition) : Prop :=
  keyCompat (seenKey t1) t2

instance : DecidablePred (fun p : (String × Char × String) × Transition => keyCompat p.1 p.2) :=
  fun _ => by unfold keyCompat; infer_instance

instance keyCompatDecidable (k : String × Char × String) (t : Transition) :
    Decidable (keyCompat k t) := by
  unfold keyCompat; infer_instance

instance detCompatDecidable (t1 t2 : Transition) : Decidable (detCompat t1 t2) := by
  unfold detCompat; infer_instance

theorem detCompat_symm : Symmetric detCompat := by
  intro t1 t2 h
  intro h1 h2
  rcases h h1.symm h2.symm with ⟨hne, he1, he2⟩
  exact ⟨fun hc => hne hc.symm, he2, he1⟩

/-- The three membership checks of one `is_deterministic` iteration pass
exactly when the current transition is `keyCompat` with every stored key. -/
theorem checks_iff (t : Transition) (seen : List (String × Char × String)) :
    ((t.source, t.letter, t.head) ∉ seen ∧
     (t.source, EPS, t.head) ∉ seen ∧
     ¬(t.letter = EPS ∧ ∃ k ∈ seen, k.1 = t.source ∧ k.2.2 = t.head)) ↔
    ∀ k ∈ seen, keyCompat k t := by
  constructor
  · rintro ⟨h1, h2, h3⟩ k hk hs hh
    refine ⟨?_, ?_, ?_⟩
    · intro hl
      exact h1 (by rcases k with ⟨a, b, c⟩; cases hs; cases hl; cases hh; exact hk)
    · intro hl
      exact h2 (by rcases k with ⟨a, b, c⟩; cases hs; cases hl; cases hh; exact hk)
    · intro hl
      exact h3 ⟨hl, k, hk, hs, hh⟩
  · intro h
    refine ⟨?_, ?_, ?_⟩
    · intro hmem
      rcases h _ hmem rfl rfl with ⟨hne, _, _⟩
      exact hne rfl
    · intro hmem
      rcases h _ hmem rfl rfl with ⟨_, hne, _⟩
      exact hne rfl
    · rintro ⟨hl, k, hk, hs, hh⟩
      rcases h k hk hs hh with ⟨_, _, hne⟩
      exact hne hl

/-- Characterization of the `is_deterministic` scan: it succeeds exactly when
every remaining transition is compatible with every stored key and the
remaining transitions are pairwise compatible among themselves. -/
theorem is_det_aux_iff (l : List Transition) :
    ∀ seen, is_det_aux l seen = true ↔
      (∀ t ∈ l, ∀ k ∈ seen, keyCompat k t) ∧ l.Pairwise detCompat := by
  induction l with
  | nil =>
    intro seen
    simp [is_det_aux]
  | cons t rest ih =>
    intro seen
    unfold is_det_aux
    by_cases h1 : (t.source, t.letter, t.head) ∈ seen
    · simp only [if_pos h1]
      constructor
      · intro h; cases h
      · rintro ⟨hall, _⟩
        rcases hall t (by simp) _ h1 rfl rfl with ⟨hne, _, _⟩
        exact absurd rfl hne
    · by_cases h2 : (t.source, EPS, t.head) ∈ seen
      · simp only [if_neg h1, if_pos h2]
        constructor
        · intro h; cases h
        · rintro ⟨hall, _⟩
          rcases hall t (by simp) _ h2 rfl rfl with ⟨_, hne, _⟩
          exact absurd rfl hne
      · by_cases h3 : t.letter = EPS ∧ ∃ k ∈ seen, k.1 = t.source ∧ k.2.2 = t.head
        · simp only [if_neg h1, if_neg h2, if_pos h3]
          constructor
          · intro h; cases h
          · rintro ⟨hall, _⟩
            rcases h3 with ⟨hl, k, hk, hs, hh⟩
            rcases hall t (by simp) k hk hs hh with ⟨_, _, hne⟩
            exact absurd hl hne
        · simp only [if_neg h1, if_neg h2, if_neg h3]
          rw [ih ((t.source, t.letter, t.head) :: seen)]
          have hpass : ∀ k ∈ seen, keyCompat k t :=
            (checks_iff t seen).mp ⟨h1, h2, h3⟩
          constructor
          · rintro ⟨hall, hpw⟩
            refine ⟨?_, ?_⟩
            · intro u hu k hk
              rcases List.mem_cons.mp hu with hu | hu
              · subst hu; exact hpass k hk
              · exact hall u hu k (List.mem_cons_of_mem _ hk)
            · refine List.Pairwise.cons ?_ hpw
              intro u hu
              exact hall u hu _ (List.mem_cons_self _ _)
          · rintro ⟨hall, hpw⟩
            rcases List.pairwise_cons.mp hpw with ⟨hhead, htail⟩
            refine ⟨?_, htail⟩
            intro u hu k hk
            rcases List.mem_cons.mp hk with hk | hk
            · subst hk; exact hhead u hu
            · exact hall u (List.mem_cons_of_mem _ hu) k hk

/-- Shared characterization: `is_deterministic` holds exactly of pairwise
determinism-compatible transition lists. -/
theorem is_deterministic_iff_pairwise (l : List Transition) :
    is_deterministic l = true ↔ l.Pairwise detCompat := by
  rw [is_deterministic, is_det_aux_iff l []]
  simp

/-- Result type of the Python function `execute`: the value `True`, the value
`False`, the implicit `None` of a fall-through return, or an uncaught
exception (`IndexError`). -/
inductive PyRes where
  | rTrue
  | rFalse
  | rNone
  | exn
deriving DecidableEq

/-- The inner scan of `execute` (`tp-langages.py`, lines 37-45): find the
first transition with `source == current_state and char == letter and
head == stack.top()`.  Python's `and` is short-circuiting, so `stack.top()`
is only evaluated once source and letter already match; on an empty stack it
raises `IndexError`, modelled as `Except.error ()`. -/
def findMatch : List Transition → Option String → Char → List (Option String) →
    Except Unit (Option Transition)
  | [], _, _, _ => .ok none
  | t :: rest, cur, c, stk =>
    if some t.source = cur ∧ c = t.letter then
      match stk with
      | [] => .error ()
      | h :: _ => if some t.head = h then .ok (some t) else findMatch rest cur c stk
    else findMatch rest cur c stk

/-- The `for char in s` loop of `execute` (`tp-langages.py`, lines 35-47).
On a match the stack top is popped; then `push[0]` is read, which raises
`IndexError` when the push list is empty, and nothing is pushed when
`push[0] == EPSILON`; otherwise the push symbols are pushed in reverse order,
so the new stack is `push ++ tail`.  `Except.error r` is an early exit of the
whole call with result `r`. -/
def runLoop (ts : List Transition) :
    List Char → Option String → List (Option String) →
    Except PyRes (Option String × List (Option String))
  | [], cur, stk => .ok (cur, stk)
  | c :: rest, cur, stk =>
    match findMatch ts cur c stk with
    | .error _ => .error .exn
    | .ok none => .error .rFalse
    | .ok (some t) =>
      match t.push with
      | [] => .error .exn
      | p0 :: _ =>
        runLoop ts rest (some t.target)
          (if p0 = EPSILONS then stk.tail else t.push.map some ++ stk.tail)

/-- Membership test `current_state in a.get_final()` (Python `None` is never
equal to a string in the final list). -/
def optMem (cur : Option String) (l : List String) : Bool :=
  match cur with
  | none => false
  | some s => s ∈ l

/-- `execute` of `tp-langages.py` (lines 27-49).  After the loop the code is
`if current_state in a.get_final(): return True` with no `else`, so the
non-final case falls through and returns Python `None` (`PyRes.rNone`). -/
def execute (a : StackAutomaton) (s : List Char) : PyRes :=
  if is_deterministic a.transitionList = true then
    match runLoop a.transitionList s a.initialstate [a.initialstack] with
    | .error r => r
    | .ok (cur, _) => if optMem cur a.finalList then .rTrue else .rNone
  else .rFalse

/-- C2: `is_deterministic(pda)` returns true if and only if, for every pair of
distinct transitions `t1=(s,a,A,·,·)` and `t2=(s,b,A,·,·)` sharing the same
source state and popped stack symbol, it holds neither that `a=b` nor that one
of `a,b` is `EPSILON`.  (Distinctness of transitions is value distinctness;
the transition list of an automaton built through `add_transition` has no
duplicates, which the hypothesis records.) -/
theorem is_deterministic_iff_no_conflicting_pairs (l : List Transition) (hnd : l.Nodup) :
    is_deterministic l = true ↔
      ∀ t1 ∈ l, ∀ t2 ∈ l, t1 ≠ t2 → t1.source = t2.source → t1.head = t2.head →
        ¬(t1.letter = t2.letter ∨ t1.letter = EPS ∨ t2.letter = EPS) := by
  rw [is_deterministic_iff_pairwise]
  constructor
  · intro hpw t1 h1 t2 h2 hne hs hh
    have hc := (hpw.forall detCompat_symm) h1 h2 hne
    rcases hc hs hh with ⟨ha, hb, hd⟩
    rintro (h | h | h)
    exacts [ha h, hb h, hd h]
  · intro h
    refine hnd.pairwise_of_forall_ne ?_
    intro t1 h1 t2 h2 hne
    intro hs hh
    have hc := h t1 h1 t2 h2 hne hs hh
    push_neg at hc
    exact ⟨hc.1, hc.2.1, hc.2.2⟩

/-- Two concrete transitions used by several witnesses. -/
def wt1 : Transition := ⟨"q0", 'a', "Z", ["Z"], "q1"⟩

/-- A second concrete transition with a different letter from `wt1`. -/
def wt2 : Transition := ⟨"q0", 'b', "Z", ["Z"], "q1"⟩

/-- Witness for `is_deterministic_iff_no_conflicting_pairs` at the concrete
two-transition list `[wt1, wt2]`. -/
theorem is_deterministic_iff_no_conflicting_pairs_witness :
    [wt1, wt2].Nodup ∧
    (is_deterministic [wt1, wt2] = true ↔
      ∀ t1 ∈ [wt1, wt2], ∀ t2 ∈ [wt1, wt2], t1 ≠ t2 → t1.source = t2.source →
        t1.head = t2.head →
        ¬(t1.letter = t2.letter ∨ t1.letter = EPS ∨ t2.letter = EPS)) :=
  ⟨by decide, is_deterministic_iff_no_conflicting_pairs [wt1, wt2] (by decide)⟩

/-- C9: `is_deterministic` returns the same boolean on every permutation of
the transition list. -/
theorem is_deterministic_perm_invariant (l l' : List Transition) (h : l.Perm l') :
    is_deterministic l = is_deterministic l' := by
  rw [Bool.eq_iff_iff, is_deterministic_iff_pairwise, is_deterministic_iff_pairwise]
  exact h.pairwise_iff fun hxy => detCompat_symm hxy

/-- Witness for `is_deterministic_perm_invariant` at a concrete swap. -/
theorem is_deterministic_perm_invariant_witness :
    is_deterministic [wt1, wt2] = is_deterministic [wt2, wt1] :=
  is_deterministic_perm_invariant [wt1, wt2] [wt2, wt1] (List.Perm.swap wt2 wt1 [])

/-- A successful `findMatch` returns a transition whose letter equals the
input character being scanned (the loop condition contains
`char == letter`). -/
theorem findMatch_ok_letter (cur : Option String) (c : Char)
    (stk : List (Option String)) :
    ∀ ts t, findMatch ts cur c stk = Except.ok (some t) → t.letter = c := by
  intro ts
  induction ts with
  | nil =>
    intro t h
    simp [findMatch] at h
  | cons u rest ih =>
    intro t h
    unfold findMatch at h
    by_cases hc : some u.source = cur ∧ c = u.letter
    · rw [if_pos hc] at h
      cases stk with
      | nil => cases h
      | cons hd tl =>
        dsimp only at h
        by_cases hh : some u.head = hd
        · rw [if_pos hh] at h
          cases h
          exact hc.2.symm
        · rw [if_neg hh] at h
          exact ih t h
    · rw [if_neg hc] at h
      exact ih t h

/-- C10: the simulator matches a transition only when the transition's letter
equals the current input character (so an `EPSILON`-labelled transition is
taken only when the input character is the literal `'%'`), and each taken
transition consumes exactly one input character: the loop continues on the
remaining input `rest`. -/
theorem execute_consumes_one_char_per_transition
    (ts : List Transition) (cur : Option String) (c : Char)
    (stk : List (Option String)) (t : Transition) (rest : List Char)
    (p0 : String) (prest : List String)
    (h : findMatch ts cur c stk = Except.ok (some t))
    (hp : t.push = p0 :: prest) :
    t.letter = c ∧ (t.letter = EPS → c = '%') ∧
    runLoop ts (c :: rest) cur stk =
      runLoop ts rest (some t.target)
        (if p0 = EPSILONS then stk.tail else t.push.map some ++ stk.tail) := by
  have hl := findMatch_ok_letter cur c stk ts t h
  refine ⟨hl, fun he => by rw [← hl]; exact he, ?_⟩
  simp only [runLoop, h, hp]

/-- Witness for `execute_consumes_one_char_per_transition` at a concrete
one-transition automaton and input character. -/
theorem execute_consumes_one_char_per_transition_witness :
    wt1.letter = 'a' ∧ (wt1.letter = EPS → 'a' = '%') ∧
    runLoop [wt1] ['a'] (some "q0") [some "Z"] =
      runLoop [wt1] [] (some wt1.target)
        (if "Z" = EPSILONS then [some "Z"].tail else wt1.push.map some ++ [some "Z"].tail) :=
  execute_consumes_one_char_per_transition [wt1] (some "q0") 'a' [some "Z"] wt1 []
    "Z" [] (by rfl) rfl

/-- A deterministic automaton on which `execute` misbehaves: its initial state
is not final, and taking two `a`-steps empties the stack. -/
def pdaC1 : StackAutomaton :=
  ⟨some "q0", some "Z", ["q9"],
   [⟨"q0", 'a', "Z", ["%"], "q1"⟩, ⟨"q1", 'a', "Z", ["%"], "q0"⟩]⟩

/-- C1 (code defect): on the deterministic automaton `pdaC1`, `execute`
returns Python `None` (not a boolean) for the empty input, because the final
`if current_state in a.get_final()` has no `else`-branch, and raises
`IndexError` on input `"aa"`, because `stack.top()` is read on an empty
stack.  This contradicts the claim that `execute` always returns a boolean
and never raises. -/
theorem execute_not_boolean_or_throws :
    is_deterministic pdaC1.transitionList = true ∧
    execute pdaC1 [] = PyRes.rNone ∧
    execute pdaC1 ['a', 'a'] = PyRes.exn := by
  decide

/-- A deterministic automaton whose initial state is final. -/
def pdaC3a : StackAutomaton := ⟨some "p0", some "Z", ["p0"], []⟩

/-- A deterministic automaton whose initial state is not final. -/
def pdaC3b : StackAutomaton := ⟨some "p0", some "Z", [], []⟩

/-- C3 (code defect): on the empty input, `execute` returns `True` when the
initial state is final, but falls through and returns Python `None` — not
`False` — when it is not. -/
theorem execute_empty_input_none_when_not_final :
    is_deterministic pdaC3a.transitionList = true ∧
    execute pdaC3a [] = PyRes.rTrue ∧
    is_deterministic pdaC3b.transitionList = true ∧
    execute pdaC3b [] = PyRes.rNone := by
  decide

/-- Python `s.islower()` for the length-1 strings classified by the grammar
accessors, restricted to the ASCII symbols the repository uses. -/
def islower1 (s : String) : Bool :=
  match s.data with
  | [c] => c.isLower
  | _ => false

/-- The `Grammar` data of `contextfree.py` read by the algorithms: the
attribute `axiom` (here `axm`, since Lean reserves that word) and `ruleList`,
a list of pairs `(non-terminal, replacement)`.  The grammars the claims are
about have their start symbol set, so `axm` is a plain string. -/
structure Grammar where
  axm : String
  ruleList : List (String × List String)
deriving DecidableEq

/-- `Grammar.get_alphabet` (`contextfree.py`, lines 465-474): the terminal
letters, i.e. the single lower-case characters occurring in replacements, in
first-occurrence order without duplicates. -/
def Grammar.get_alphabet (g : Grammar) : List String :=
  g.ruleList.foldl
    (fun letters p =>
      p.2.foldl
        (fun letters s =>
          if s.length = 1 ∧ islower1 s = true ∧ s ∉ letters then letters ++ [s]
          else letters)
        letters)
    []

/-- `Grammar.get_symbolalphabet` (`contextfree.py`, lines 478-489): the
non-terminals, i.e. every left-hand side plus every replacement symbol that
is not a single lower-case character, in first-occurrence order. -/
def Grammar.get_symbolalphabet (g : Grammar) : List String :=
  g.ruleList.foldl
    (fun symbols p =>
      let symbols := if p.1 ∉ symbols then symbols ++ [p.1] else symbols
      p.2.foldl
        (fun symbols s =>
          if (s.length > 1 ∨ islower1 s = false) ∧ s ∉ symbols then symbols ++ [s]
          else symbols)
        symbols)
    []

/-- `Grammar.add_rule` (`contextfree.py`, lines 413-431): appending is skipped
(with a warning) when the rule is already present, the non-terminal is empty,
or some replacement symbol is empty. -/
def Grammar.add_rule (g : Grammar) (symbol : String) (replace : List String) : Grammar :=
  if (symbol, replace) ∈ g.ruleList then g
  else if symbol.length = 0 then g
  else if replace.any fun s => s.length = 0 then g
  else { g with ruleList := g.ruleList ++ [(symbol, replace)] }

/-- Python `list.remove`: drop the first occurrence. -/
def removeFirstRule : List (String × List String) → String × List String →
    List (String × List String)
  | [], _ => []
  | q :: rest, p => if q = p then rest else q :: removeFirstRule rest p

/-- `Grammar.remove_rule` (`contextfree.py`, lines 435-443): remove the first
occurrence of the rule, or warn and do nothing when it is absent. -/
def Grammar.remove_rule (g : Grammar) (symbol : String) (replace : List String) : Grammar :=
  if (symbol, replace) ∈ g.ruleList then
    { g with ruleList := removeFirstRule g.ruleList (symbol, replace) }
  else g

/-- One rule check of `is_cnf` (`tp-langages.py`, lines 52-63): the three
early-return conditions for a single rule `(symbol, replace)`.  `replace[0]`
of the length-1 check is `headD` (the branch is guarded by `len == 1`). -/
def Grammar.is_cnf_rule (g : Grammar) (symbol : String) (replace : List String) : Bool :=
  if replace.length > 2 then false
  else if replace.length = 1 ∧ replace.headD "" ∉ g.get_symbolalphabet then false
  else replace.all fun letter =>
    decide (¬(letter = g.axm ∨
      (replace.length = 2 ∧ letter ∈ g.get_alphabet) ∨
      (symbol ≠ g.axm ∧ letter = "EPSILON")))

/-- `is_cnf` of `tp-langages.py` (lines 52-63); the early returns over pure
per-rule checks are the conjunction of the checks over all rules. -/
def is_cnf (g : Grammar) : Bool :=
  g.ruleList.all fun p => g.is_cnf_rule p.1 p.2

/-- What the `is_cnf` code actually decides, rule by rule (the amended C4). -/
def cnfCodeProp (g : Grammar) : Prop :=
  ∀ p ∈ g.ruleList,
    p.2.length ≤ 2 ∧
    (∀ x, p.2 = [x] → x ∈ g.get_symbolalphabet) ∧
    ∀ letter ∈ p.2,
      letter ≠ g.axm ∧
      (p.2.length = 2 → letter ∉ g.get_alphabet) ∧
      (p.1 ≠ g.axm → letter ≠ "EPSILON")

/-- The claim's notion of a terminal (spec §3): a single lower-case
character. -/
def isTerminalSym (s : String) : Bool := islower1 s

/-- C4 as the claim words it: replacements of length at most 2; a length-1
replacement is a single terminal, never a non-terminal; a length-2 replacement
is two non-terminals; only the axiom may have an empty replacement. -/
def cnfClaimProp (g : Grammar) : Prop :=
  ∀ p ∈ g.ruleList,
    p.2.length ≤ 2 ∧
    (p.2.length = 1 → ∀ x ∈ p.2, isTerminalSym x = true) ∧
    (p.2.length = 2 → ∀ x ∈ p.2, isTerminalSym x = false) ∧
    (p.2 = [] → p.1 = g.axm)

/-- The grammar with axiom `S` and single rule `S -> a`. -/
def gC4 : Grammar := ⟨"S", [("S", ["a"])]⟩

/-- C4 counterexample: on the CNF grammar `S -> a` the claimed equivalence
fails — the claim's predicate holds but `is_cnf` returns `false`, because the
code requires a length-1 replacement to be in `get_symbolalphabet()` (the
non-terminals), rejecting the terminal `a`. -/
theorem is_cnf_differs_from_claim :
    ¬(is_cnf gC4 = true ↔ cnfClaimProp gC4) := by
  intro h
  have h1 : cnfClaimProp gC4 := by
    unfold cnfClaimProp isTerminalSym
    decide
  have h2 : is_cnf gC4 = false := by decide
  rw [h.mpr h1] at h2
  cases h2

/-- Per-rule reading of the three checks of `is_cnf`. -/
theorem is_cnf_rule_iff (g : Grammar) (symbol : String) (replace : List String) :
    g.is_cnf_rule symbol replace = true ↔
      (replace.length ≤ 2 ∧
       (∀ x, replace = [x] → x ∈ g.get_symbolalphabet) ∧
       ∀ letter ∈ replace,
         letter ≠ g.axm ∧ (replace.length = 2 → letter ∉ g.get_alphabet) ∧
         (symbol ≠ g.axm → letter ≠ "EPSILON")) := by
  unfold Grammar.is_cnf_rule
  by_cases h1 : replace.length > 2
  · rw [if_pos h1]
    constructor
    · intro h; cases h
    · rintro ⟨h, -⟩; omega
  · rw [if_neg h1]
    by_cases h2 : replace.length = 1 ∧ replace.headD "" ∉ g.get_symbolalphabet
    · rw [if_pos h2]
      constructor
      · intro h; cases h
      · rintro ⟨-, hx, -⟩
        rcases replace with _ | ⟨x, rest⟩
        · exact absurd h2.1 (by simp)
        · rcases rest with _ | _
          · exact absurd (hx x rfl) (by simpa using h2.2)
          · exact absurd h2.1 (by simp)
    · rw [if_neg h2]
      rw [List.all_eq_true]
      constructor
      · intro h
        refine ⟨by omega, ?_, ?_⟩
        · intro x hx
          subst hx
          by_contra hmem
          exact h2 ⟨by simp, by simpa using hmem⟩
        · intro letter hl
          have hc := h letter hl
          rw [decide_eq_true_iff] at hc
          push_neg at hc
          exact hc
      · rintro ⟨-, -, hall⟩
        intro letter hl
        rw [decide_eq_true_iff]
        push_neg
        exact hall letter hl

/-- C4 amended: `is_cnf(grammar)` returns true iff every rule `(X, r)` has
`len(r) ≤ 2`, a length-1 `r` consists of a symbol of `get_symbolalphabet()`
(so a single non-terminal passes and a single terminal fails), no symbol of
`r` equals the axiom, a length-2 `r` contains no symbol of `get_alphabet()`,
and when `X` is not the axiom no symbol of `r` is the literal string
`"EPSILON"`; empty replacements are accepted for every non-terminal. -/
theorem is_cnf_iff_code_characterization (g : Grammar) :
    is_cnf g = true ↔ cnfCodeProp g := by
  unfold is_cnf cnfCodeProp
  rw [List.all_eq_true]
  exact forall_congr' fun p => forall_congr' fun _ => is_cnf_rule_iff g p.1 p.2

/-- The module-level `all = Grammar.get_alphabet() + Grammar.get_symbolalphabet()`
of `tp-langages.py` (line 65).  The literal line calls the instance methods on
the class `Grammar` itself, which raises `TypeError` when the module is
loaded; it is modelled here, as charitably as possible, as the current
grammar's terminal plus non-terminal alphabets (the evident intent, spec
§4.4: "a name not already used by any terminal or non-terminal"). -/
def pyAll (g : Grammar) : List String := g.get_alphabet ++ g.get_symbolalphabet

/-- The `while generated_symbol in all` loop of `generate_symbol`
(`tp-langages.py`, lines 67-73), with fuel.  The literal loop body
`generated_symbol = symbol + i` concatenates a string and an integer and
raises `TypeError` on the first collision; it is modelled as the intended
`symbol + str(i)`.  The candidates `symbol+"0"`, `symbol+"1"`, … are pairwise
distinct, so `|all| + 1` attempts always suffice. -/
def gen_go (allSyms : List String) (symbol : String) : Nat → Nat → String
  | 0, i => symbol ++ toString i
  | fuel + 1, i =>
    let cand := symbol ++ toString i
    if cand ∈ allSyms then gen_go allSyms symbol fuel (i + 1) else cand

/-- `generate_symbol` of `tp-langages.py` (lines 67-73), against the symbol
collection `allSyms` (see `pyAll`). -/
def generate_symbol (allSyms : List String) (symbol : String) : String :=
  if symbol ∈ allSyms then gen_go allSyms symbol (allSyms.length + 1) 0 else symbol

/-- The `for symbol, replace in grammar.ruleList` loop of `step_1`
(`tp-langages.py`, lines 75-80).  Python iterates over the live, mutating
list by index, so the loop is modelled with an explicit index and fuel; every
iteration appends at most one rule, so `2·|rules| + 2` steps are enough for
the concrete evaluations below.  Note the body adds `(new_symbol, replace)` —
the whole right-hand side of the offending rule — and not
`(new_symbol, [axiom])`. -/
def step_1_go : Nat → Grammar → Nat → Grammar
  | 0, g, _ => g
  | fuel + 1, g, i =>
    match g.ruleList[i]? with
    | none => g
    | some p =>
      if g.axm ∈ p.2 then
        let ns := generate_symbol (pyAll g) g.axm
        step_1_go fuel { g.add_rule ns p.2 with axm := ns } (i + 1)
      else step_1_go fuel g (i + 1)

/-- `step_1` of `tp-langages.py` (lines 75-80). -/
def step_1 (g : Grammar) : Grammar := step_1_go (2 * g.ruleList.length + 2) g 0

/-- The grammar with axiom `S` and single rule `S -> a.S.b`. -/
def gC5 : Grammar := ⟨"S", [("S", ["a", "S", "b"])]⟩

/-- C5 (code defect): on `S -> aSb`, `step_1` generates the fresh symbol `S0`
and makes it the axiom, but the rule it adds is `S0 -> a.S.b` — a copy of the
whole offending replacement — not the claimed `S0 -> S`. -/
theorem step_1_copies_whole_replacement :
    step_1 gC5 = ⟨"S0", [("S", ["a", "S", "b"]), ("S0", ["a", "S", "b"])]⟩ ∧
    ("S0", ["S"]) ∉ (step_1 gC5).ruleList := by
  decide

/-- Lookup in the `list_replace` dict of `step_2` (keys are only inserted
when absent, so an association list is faithful). -/
def lookupSubst (subst : List (String × String)) (k : String) : Option String :=
  match subst with
  | [] => none
  | p :: rest => if p.1 = k then some p.2 else lookupSubst rest k

/-- The `for letter in x` loop of `step_2` (`tp-langages.py`, lines 90-94):
each character of the replacement symbol `x` that is a terminal letter gets a
generated substitute (recorded in `list_replace` on first sight), and
`new_str += list_replace.get(letter, letter)`. -/
def step_2_chars (allSyms alpha : List String) :
    List Char → List (String × String) → String → List (String × String) × String
  | [], subst, acc => (subst, acc)
  | c :: cs, subst, acc =>
    let s := String.singleton c
    let subst :=
      if s ∈ alpha ∧ lookupSubst subst s = none then
        subst ++ [(s, generate_symbol allSyms s)]
      else subst
    step_2_chars allSyms alpha cs subst (acc ++ ((lookupSubst subst s).getD s))

/-- The `for x in replace` loop of `step_2` (`tp-langages.py`, lines 88-95):
rewrite each symbol of the replacement, threading `list_replace` through the
whole rule. -/
def step_2_symbols (allSyms alpha : List String) :
    List String → List (String × String) → List String →
    List (String × String) × List String
  | [], subst, out => (subst, out)
  | x :: xs, subst, out =>
    let r := step_2_chars allSyms alpha x.data subst ""
    step_2_symbols allSyms alpha xs r.1 (out ++ [r.2])

/-- The `for symbol, replace in grammar.ruleList` loop of `step_2`
(`tp-langages.py`, lines 83-97), modelled like `step_1_go` with an index into
the live list: the body removes the current rule and appends the rewritten
one, which shifts the remaining rules one slot to the left under the
iterator. -/
def step_2_go : Nat → Grammar → Nat → Grammar
  | 0, g, _ => g
  | fuel + 1, g, i =>
    match g.ruleList[i]? with
    | none => g
    | some p =>
      if p.2.length ≥ 2 then
        let r := step_2_symbols (pyAll g) g.get_alphabet p.2 [] []
        let g2 := (g.remove_rule p.1 p.2).add_rule p.1 r.2
        step_2_go fuel g2 (i + 1)
      else step_2_go fuel g (i + 1)

/-- `step_2` of `tp-langages.py` (lines 83-97). -/
def step_2 (g : Grammar) : Grammar := step_2_go (2 * g.ruleList.length + 2) g 0

/-- The grammar with axiom `S` and rules `S -> a.A`, `A -> b.B`. -/
def gC6 : Grammar := ⟨"S", [("S", ["a", "A"]), ("A", ["b", "B"])]⟩

/-- C6 (code defect): running `step_2` on `S -> aA, A -> bB` rewrites the
first rule to `S -> a0.A`, but removing it mid-iteration shifts the list, so
the iterator never visits `A -> b.B`: that rule keeps the terminal `b` in a
length-2 replacement, contradicting the claimed postcondition. -/
theorem step_2_skips_following_rule :
    step_2 gC6 = ⟨"S", [("A", ["b", "B"]), ("S", ["a0", "A"])]⟩ ∧
    ("A", ["b", "B"]) ∈ (step_2 gC6).ruleList ∧
    "b" ∈ (step_2 gC6).get_alphabet ∧
    (["b", "B"] : List String).length ≥ 2 := by
  decide

/-- A value stored inside a rule's second component while
`remove_null_productions` (`tp-langages.py`, lines 157-186) runs.  The
function was written for a grouped rule layout, but `grammar.ruleList` holds
flat pairs `(symbol, replacement)`, so its `for replace in replaces` loops
iterate over the *symbols* of one replacement — Python strings — and
`new_replaces.add(tuple(subset))` can insert a tuple of 1-character strings,
which Python never considers equal to a string.  `Repl.s` is a string,
`Repl.t` a tuple. -/
inductive Repl where
  | s (v : String)
  | t (v : List String)
deriving DecidableEq

/-- Python truthiness of a string / tuple value. -/
def Repl.truthy : Repl → Bool
  | .s v => decide (v ≠ "")
  | .t l => decide (l ≠ [])

/-- Iterating a Python string yields its characters as 1-character strings;
iterating a tuple yields its components. -/
def Repl.elems : Repl → List String
  | .s v => v.data.map String.singleton
  | .t l => l

/-- Python `len`. -/
def Repl.len : Repl → Nat
  | .s v => v.length
  | .t l => l.length

/-- Python indexing `replace[i]` (only used for `i < len`; the default is
never reached). -/
def Repl.idx : Repl → Nat → String
  | .s v, i => String.singleton (v.data.getD i ' ')
  | .t l, i => l.getD i ""

/-- Python `replace[:i] + replace[i+1:]`. -/
def Repl.drop1 : Repl → Nat → Repl
  | .s v, i => .s ⟨v.data.take i ++ v.data.drop (i + 1)⟩
  | .t l, i => .t (l.take i ++ l.drop (i + 1))

/-- Python `tuple(subset)`. -/
def Repl.toTuple : Repl → Repl
  | .s v => .t (v.data.map String.singleton)
  | .t l => .t l

/-- One full pass of the nullable fixed-point loop of
`remove_null_productions` (lines 160-167): a left-hand side is recorded when
its rule's entries are all (character-level) members of the current nullable
set — note that with the flat layout a rule `(A, [])` runs the inner loop
zero times and never records `A`. -/
def nullablePass (rules : List (String × List Repl)) (nb0 : List String) : List String :=
  rules.foldl
    (fun nb p =>
      p.2.foldl
        (fun nb r =>
          if (r.truthy = false ∨ ∀ c ∈ r.elems, c ∈ nb) ∧ p.1 ∉ nb then nb ++ [p.1]
          else nb)
        nb)
    nb0

/-- The `while changes` loop around `nullablePass`, with fuel (each pass
either appends a new left-hand side or is the last). -/
def nullableFix : Nat → List (String × List Repl) → List String → List String
  | 0, _, nb => nb
  | fuel + 1, rules, nb =>
    let nb2 := nullablePass rules nb
    if nb2 = nb then nb else nullableFix fuel rules nb2

/-- Python `set(replaces)` and its later iteration, modelled in
first-occurrence order (only membership and iteration are used). -/
def pyDedup (l : List Repl) : List Repl :=
  l.foldl (fun acc x => if x ∈ acc then acc else acc ++ [x]) []

/-- The per-rule body of the second phase (lines 171-180): start from
`set(replaces)` and add `tuple(subset)` for every single-position deletion of
a nullable entry, when the subset is non-empty or the owner is the axiom. -/
def phase2Rule (axm : String) (nullable : List String) (symbol : String)
    (replaces : List Repl) : List Repl :=
  replaces.foldl
    (fun acc replace =>
      if replace.truthy then
        (List.range replace.len).foldl
          (fun acc i =>
            if replace.idx i ∈ nullable then
              let subset := replace.drop1 i
              if subset.truthy = true ∨ symbol = axm then
                if subset.toTuple ∈ acc then acc else acc ++ [subset.toTuple]
              else acc
            else acc)
          acc
      else acc)
    (pyDedup replaces)

/-- `remove_null_productions` of `tp-langages.py` (lines 157-186) under the
repository's flat rule layout.  The final comprehension
`[replace for replace in replaces if replace or symbol == grammar.axiom]`
filters the *entries of one replacement* — all non-empty strings or tuples —
so it never removes a rule-level empty replacement. -/
def remove_null_productions (axm : String) (rules : List (String × List Repl)) :
    List (String × List Repl) :=
  let nullable := nullableFix (rules.length + 1) rules []
  let r2 := rules.map fun p => (p.1, phase2Rule axm nullable p.1 p.2)
  r2.map fun p => (p.1, p.2.filter fun r => r.truthy || decide (p.1 = axm))

/-- The flat rule list of the grammar with axiom `S`, rules `S -> a` and
`A -> %` (an explicit null production owned by the non-axiom `A`). -/
def gC7rules : List (String × List Repl) := [("S", [Repl.s "a"]), ("A", [])]

/-- C7 (code defect): `remove_null_productions` leaves the non-axiom null
production `A -> %` in place — the strip filter looks inside each
replacement at its symbols (always truthy) instead of at the replacements,
and the nullable loop never even sees a rule-level empty replacement. -/
theorem remove_null_productions_keeps_nonaxiom_null :
    remove_null_productions "S" gC7rules = [("S", [Repl.s "a"]), ("A", [])] ∧
    ("A", ([] : List Repl)) ∈ remove_null_productions "S" gC7rules ∧
    "A" ≠ "S" := by
  decide

/-- The whitespace characters stripped by Python `str.strip()`. -/
def pyIsSpace (c : Char) : Bool :=
  c = ' ' || c = '\t' || c = '\n' || c = '\r' || c = '\x0b' || c = '\x0c'

/-- Python `str.strip()` on a character list. -/
def pyStrip (l : List Char) : List Char :=
  ((l.dropWhile pyIsSpace).reverse.dropWhile pyIsSpace).reverse

/-- Python `str.split(sep)` for a one-character separator: split at every
occurrence, keeping empty parts (`"F ".split(" ") == ["F", ""]`). -/
def pySplitChar (sep : Char) : List Char → List (List Char)
  | [] => [[]]
  | c :: rest =>
    let r := pySplitChar sep rest
    if c = sep then [] :: r
    else
      match r with
      | [] => [[c]]
      | h :: t => (c :: h) :: t

/-- Python `sep.join(parts)` for a one-character separator. -/
def joinSep (sep : Char) : List (List Char) → List Char
  | [] => []
  | [p] => p
  | p :: ps => p ++ sep :: joinSep sep ps

/-- One serialized transition line of `StackAutomaton.to_txtfile`
(`contextfree.py`, lines 294-299): `source letter head push target`, with the
push list `.`-joined, or `%` when empty. -/
def transRow (t : Transition) : List Char :=
  t.source.data ++ [' '] ++ [t.letter] ++ [' '] ++ t.head.data ++ [' '] ++
  (if t.push.length = 0 then ['%'] else joinSep '.' (t.push.map String.data)) ++
  [' '] ++ t.target.data

/-- `StackAutomaton.to_txtfile` (`contextfree.py`, lines 279-306), as the
text it returns (the optional file write is I/O plumbing).  A falsy
`initialstate` / `initialstack` (Python `None` or the empty string)
serializes as a bare `I` / `S`. -/
def to_txtfile (a : StackAutomaton) : List Char :=
  (match a.initialstate with
   | some q => if q = "" then "I".data else "I ".data ++ q.data
   | none => "I".data) ++ ['\n'] ++
  "F ".data ++ joinSep ' ' (a.finalList.map String.data) ++ ['\n'] ++
  (match a.initialstack with
   | some z => if z = "" then "S".data else "S ".data ++ z.data
   | none => "S".data) ++
  (a.transitionList.map fun t => '\n' :: transRow t).flatten

/-- `StackAutomaton.add_transition` (`contextfree.py`, lines 87-106): the
transition is skipped (with a warning) when it is a duplicate, a state name
is empty, or a stack symbol (head or pushed) is empty.  The `len(letter)==1`
check is handled by the row parser, since a Lean `Char` is a length-1 string
by construction. -/
def add_transition (ts : List Transition) (t : Transition) : List Transition :=
  if t ∈ ts then ts
  else if t.source.length = 0 ∨ t.target.length = 0 then ts
  else if t.head.length = 0 ∨ t.push.any fun s => s.length = 0 then ts
  else ts ++ [t]

/-- Parsing of one transition row by `StackAutomaton.from_txt`
(`contextfree.py`, lines 341-350): exactly five space-separated fields or a
fatal error (`none`); the push field `%` means the empty push, otherwise it
is stripped and split on `.`; the parsed fields go through
`add_transition` (a letter that is not a single character is warn-skipped
there). -/
def parseRow (ts : List Transition) (row : List Char) : Option (List Transition) :=
  match pySplitChar ' ' (pyStrip row) with
  | [s, lt, h, p, tg] =>
    let push : List String :=
      if p = ['%'] then [] else (pySplitChar '.' (pyStrip p)).map fun cs => ⟨cs⟩
    match lt with
    | [c] => some (add_transition ts ⟨⟨s⟩, c, ⟨h⟩, push, ⟨tg⟩⟩)
    | _ => some ts
  | _ => none

/-- `StackAutomaton.from_txt` (`contextfree.py`, lines 310-350).  All fatal
`error(...)` exits are `none`, as is the uncaught `IndexError` of the
unconditional `rows[2]` access when only two rows are present. -/
def from_txt (text : List Char) : Option StackAutomaton :=
  let rows := pySplitChar '\n' (pyStrip text)
  if rows.length < 2 then none
  else
    let line1 := pySplitChar ' ' (rows.getD 0 [])
    if line1.headD [] ≠ "I".data then none
    else
      let line2 := pySplitChar ' ' (rows.getD 1 [])
      if line2.headD [] ≠ "F".data then none
      else if rows.length ≤ 2 then none
      else
        let line3 := pySplitChar ' ' (rows.getD 2 [])
        if line3.headD [] ≠ "S".data then none
        else if line1.length > 2 then none
        else if line3.length > 2 then none
        else
          let ini : Option String :=
            if line1.length = 2 then some ⟨line1.getD 1 []⟩ else none
          let stk : Option String :=
            if line3.length = 2 then some ⟨line3.getD 1 []⟩ else none
          let fins : List String := (line2.drop 1).map fun cs => ⟨cs⟩
          match (rows.drop 3).foldlM parseRow [] with
          | none => none
          | some ts => some ⟨ini, stk, fins, ts⟩

/-- An ordinary automaton with no final state. -/
def pdaC8 : StackAutomaton := ⟨some "q0", some "Z", [], []⟩

/-- C8 (code defect): serializing an automaton with zero final states writes
the line `F ` (with a trailing space), and re-parsing it yields the phantom
final state `""` — an empty state name, which the model's own invariants
forbid — so the final-state set is not preserved by the round trip. -/
theorem from_txt_to_txtfile_adds_phantom_final :
    pdaC8.finalList = [] ∧
    from_txt (to_txtfile pdaC8) = some ⟨some "q0", some "Z", [""], []⟩ := by
  decide
